import Mathlib

/-!
Verification of the lane-detection core: a shallow embedding of
`src/lane_detection/utils.py` (the Lane Geometry Fitter and the Frame
Compositor blend) and of the frame loop of `src/main.py` (the Video
Pipeline Driver), with theorems settling the specification claims.

Numeric model: the Python code computes slopes, intercepts and averages
with ordinary arithmetic on scalar values; we embed that arithmetic in ℚ,
reading the literals `0.3` and `0.6` as the rationals 3/10 and 6/10, which
is the symbolic reading the specification itself uses.  Python's `int()`
truncates toward zero, embedded as `pyInt`.  Code whose Python counterpart
can raise (the extrapolation divisions) lives in `Except String`.
-/

namespace LaneDetection

/-- A raw Hough line segment `(x1, y1, x2, y2)` in pixel coordinates,
as produced by the segment detector (integer endpoints). -/
structure Segment where
  x1 : ℤ
  y1 : ℤ
  x2 : ℤ
  y2 : ℤ
deriving DecidableEq, Repr

/-- `slope = (y2 - y1) / (x2 - x1)` -- utils.py line 130. -/
def slope (s : Segment) : ℚ :=
  ((s.y2 : ℚ) - (s.y1 : ℚ)) / ((s.x2 : ℚ) - (s.x1 : ℚ))

/-- `intercept = y1 - slope * x1` -- utils.py line 131. -/
def intercept (s : Segment) : ℚ :=
  (s.y1 : ℚ) - slope s * (s.x1 : ℚ)

/-- Python `int()` applied to a real value: truncation toward zero. -/
def pyInt (q : ℚ) : ℤ :=
  if 0 ≤ q then ⌊q⌋ else ⌈q⌉

/-- The left candidate group built by the classification loop of
`calculate_lane_lines` (utils.py lines 125-137): vertical segments are
skipped, and a segment contributes its `(slope, intercept)` pair exactly
when `slope < -0.3`. -/
def left_lines (lines : List Segment) : List (ℚ × ℚ) :=
  lines.filterMap fun s =>
    if s.x1 = s.x2 then none
    else if slope s < -(3/10) then some (slope s, intercept s)
    else none

/-- The right candidate group of the same loop: vertical segments are
skipped, the `slope < -0.3` branch wins first, and a segment contributes
exactly when `slope > 0.3` (the `elif`). -/
def right_lines (lines : List Segment) : List (ℚ × ℚ) :=
  lines.filterMap fun s =>
    if s.x1 = s.x2 then none
    else if slope s < -(3/10) then none
    else if (3/10) < slope s then some (slope s, intercept s)
    else none

/-- `np.average` along axis 0 of a list of scalars: the unweighted
arithmetic mean. -/
def avg (l : List ℚ) : ℚ := l.sum / (l.length : ℚ)

/-- An extrapolated lane line `((x1, y1), (x2, y2))`. -/
abbrev LaneLine := (ℤ × ℤ) × (ℤ × ℤ)

/-- The per-group averaging and extrapolation of `calculate_lane_lines`
(utils.py lines 143-159): an empty group yields no line (`None` stays);
otherwise average slope and intercept, anchor `y1 = image_height` and
`y2 = int(y1 * 0.6)`, and solve `x = int((y - intercept) / slope)` at
each anchor.  A zero averaged slope would make Python's extrapolation
blow up (there is no guard in the source), modelled as an `Except.error`. -/
def fitLane (group : List (ℚ × ℚ)) (image_height : ℕ) :
    Except String (Option LaneLine) :=
  if group = [] then .ok none
  else
    let m : ℚ := avg (group.map Prod.fst)
    let b : ℚ := avg (group.map Prod.snd)
    if m = 0 then .error "zero averaged slope in extrapolation"
    else
      let y1 : ℤ := (image_height : ℤ)
      let y2 : ℤ := pyInt ((image_height : ℚ) * (6/10))
      let x1 : ℤ := pyInt (((y1 : ℚ) - b) / m)
      let x2 : ℤ := pyInt (((y2 : ℚ) - b) / m)
      .ok (some ((x1, y1), (x2, y2)))

/-- `calculate_lane_lines` (utils.py lines 109-161): `None` input yields
`(None, None)`; otherwise classify the segments and fit each group, the
left one first, propagating a crash if one occurs. -/
def calculate_lane_lines (lines : Option (List Segment)) (image_height : ℕ) :
    Except String (Option LaneLine × Option LaneLine) :=
  match lines with
  | none => .ok (none, none)
  | some ls =>
    match fitLane (left_lines ls) image_height,
          fitLane (right_lines ls) image_height with
    | .ok l, .ok r => .ok (l, r)
    | .error e, _ => .error e
    | .ok _, .error e => .error e

/-- `cv2.addWeighted(src1, alpha, src2, beta, gamma)` acting on one pixel
value: `src1 * alpha + src2 * beta + gamma` (the saturation to the pixel
range, identical on both sides of the comparison below, is elided). -/
def addWeighted (src1 : ℚ) (alpha : ℚ) (src2 : ℚ) (beta : ℚ) (gamma : ℚ) : ℚ :=
  src1 * alpha + src2 * beta + gamma

/-- `weighted_img` (utils.py lines 93-106), per pixel: the source returns
`cv2.addWeighted(initial_img, α, img, β, γ)`, i.e. it passes the original
frame with weight `α` and the lane overlay with weight `β`.  The Python
defaults are `α = 0.8`, `β = 1`, `γ = 0`. -/
def weighted_img (img : ℚ) (initial_img : ℚ) (α β γ : ℚ) : ℚ :=
  addWeighted initial_img α img β γ

/-- The blend formula stated by the docstring of `weighted_img` and by the
spec: `output = img * α + initial_img * β + γ` (overlay weighted by `α`,
original frame by `β`).  Written from those words, to be compared with
`weighted_img` above. -/
def weighted_img_spec (img : ℚ) (initial_img : ℚ) (α β γ : ℚ) : ℚ :=
  img * α + initial_img * β + γ

/-- The mutable loop state of `process_video` (main.py lines 36-37):
`frame_count`, the list of per-frame `processing_times`, and the number of
frames written to the output sink. -/
structure LoopState where
  frame_count : ℕ
  processing_times : List ℚ
  written : ℕ
deriving DecidableEq

/-- The frame loop of `process_video` (main.py lines 40-69).  The input
stream is modelled as the list of frames the source will successfully
read, each carrying its measured processing duration and whether the
user presses the quit key while that frame is displayed; an exhausted
list is `ret == False`.  Per iteration the code appends the duration,
writes the frame, then (only when `visualize`) checks the quit key and
breaks, and only after that increments `frame_count`. -/
def loop (visualize : Bool) : List (ℚ × Bool) → LoopState → LoopState
  | [], s => s
  | (dur, key) :: rest, s =>
    let s1 : LoopState :=
      { s with processing_times := s.processing_times ++ [dur],
               written := s.written + 1 }
    if visualize && key then s1
    else loop visualize rest { s1 with frame_count := s1.frame_count + 1 }

/-- What `process_video` leaves behind: the loop counters, the
unconditional releases of the `finally` block (main.py lines 71-75), and
the final statistics report (lines 78-82), which is printed only when
`processing_times` is non-empty and then consists of the frame count, the
mean duration and the mean FPS `1 / mean`. -/
structure DriverResult where
  frame_count : ℕ
  processing_times : List ℚ
  written : ℕ
  capReleased : Bool
  writerReleased : Bool
  report : Option (ℕ × ℚ × ℚ)
deriving DecidableEq

/-- `process_video` (main.py lines 10-82) after a successful open: run the
frame loop from zero counters, release resources unconditionally, and
report statistics only if at least one duration was recorded. -/
def process_video (visualize : Bool) (src : List (ℚ × Bool)) : DriverResult :=
  let s := loop visualize src ⟨0, [], 0⟩
  { frame_count := s.frame_count
    processing_times := s.processing_times
    written := s.written
    capReleased := true
    writerReleased := true
    report :=
      if s.processing_times = [] then none
      else
        let avg_time := s.processing_times.sum / (s.processing_times.length : ℚ)
        some (s.frame_count, avg_time, 1 / avg_time) }

/-! Helper lemmas. -/

/-- A list of values all below `c` sums to less than `c` times its length. -/
lemma sum_lt_card_mul (c : ℚ) :
    ∀ l : List ℚ, l ≠ [] → (∀ x ∈ l, x < c) → l.sum < c * (l.length : ℚ) := by
  intro l
  induction l with
  | nil => intro h; exact absurd rfl h
  | cons x t ih =>
    intro _ hlt
    rcases t with _ | ⟨y, t2⟩
    · simpa using hlt x (List.mem_cons_self x [])
    · have hx := hlt x (List.mem_cons_self _ _)
      have ht := ih (List.cons_ne_nil _ _) fun z hz => hlt z (List.mem_cons_of_mem _ hz)
      simp only [List.sum_cons, List.length_cons] at *
      push_cast at *
      linarith

/-- A list of values all above `c` sums to more than `c` times its length. -/
lemma card_mul_lt_sum (c : ℚ) :
    ∀ l : List ℚ, l ≠ [] → (∀ x ∈ l, c < x) → c * (l.length : ℚ) < l.sum := by
  intro l
  induction l with
  | nil => intro h; exact absurd rfl h
  | cons x t ih =>
    intro _ hlt
    rcases t with _ | ⟨y, t2⟩
    · simpa using hlt x (List.mem_cons_self x [])
    · have hx := hlt x (List.mem_cons_self _ _)
      have ht := ih (List.cons_ne_nil _ _) fun z hz => hlt z (List.mem_cons_of_mem _ hz)
      simp only [List.sum_cons, List.length_cons] at *
      push_cast at *
      linarith

/-- The unweighted mean of a non-empty list of values all below `c` is
below `c`. -/
lemma avg_lt_of_forall_lt (c : ℚ) (l : List ℚ) (hne : l ≠ []) (h : ∀ x ∈ l, x < c) :
    avg l < c := by
  have hlen : (0 : ℚ) < (l.length : ℚ) := by
    exact_mod_cast List.length_pos.mpr hne
  rw [avg, div_lt_iff₀ hlen]
  exact sum_lt_card_mul c l hne h

/-- The unweighted mean of a non-empty list of values all above `c` is
above `c`. -/
lemma lt_avg_of_forall_lt (c : ℚ) (l : List ℚ) (hne : l ≠ []) (h : ∀ x ∈ l, c < x) :
    c < avg l := by
  have hlen : (0 : ℚ) < (l.length : ℚ) := by
    exact_mod_cast List.length_pos.mpr hne
  rw [avg, lt_div_iff₀ hlen]
  exact card_mul_lt_sum c l hne h

/-- Every pair collected into the left candidate group has slope
strictly below `-0.3`. -/
lemma slope_of_mem_left {ls : List Segment} {p : ℚ × ℚ} (hp : p ∈ left_lines ls) :
    p.1 < -(3/10) := by
  rw [left_lines, List.mem_filterMap] at hp
  obtain ⟨s, _, hfs⟩ := hp
  by_cases h1 : s.x1 = s.x2
  · rw [if_pos h1] at hfs; cases hfs
  · rw [if_neg h1] at hfs
    by_cases h2 : slope s < -(3/10)
    · rw [if_pos h2] at hfs
      cases hfs
      exact h2
    · rw [if_neg h2] at hfs; cases hfs

/-- Every pair collected into the right candidate group has slope
strictly above `0.3`. -/
lemma slope_of_mem_right {ls : List Segment} {p : ℚ × ℚ} (hp : p ∈ right_lines ls) :
    (3/10) < p.1 := by
  rw [right_lines, List.mem_filterMap] at hp
  obtain ⟨s, _, hfs⟩ := hp
  by_cases h1 : s.x1 = s.x2
  · rw [if_pos h1] at hfs; cases hfs
  · rw [if_neg h1] at hfs
    by_cases h2 : slope s < -(3/10)
    · rw [if_pos h2] at hfs; cases hfs
    · rw [if_neg h2] at hfs
      by_cases h3 : (3/10) < slope s
      · rw [if_pos h3] at hfs
        cases hfs
        exact h3
      · rw [if_neg h3] at hfs; cases hfs

/-- The averaged slope of a non-empty left group is below `-0.3`. -/
lemma left_avg_slope_lt {ls : List Segment} (hne : left_lines ls ≠ []) :
    avg ((left_lines ls).map Prod.fst) < -(3/10) := by
  apply avg_lt_of_forall_lt
  · simpa [List.map_eq_nil_iff] using hne
  · intro x hx
    rw [List.mem_map] at hx
    obtain ⟨p, hp, rfl⟩ := hx
    exact slope_of_mem_left hp

/-- The averaged slope of a non-empty right group is above `0.3`. -/
lemma right_avg_slope_gt {ls : List Segment} (hne : right_lines ls ≠ []) :
    (3/10) < avg ((right_lines ls).map Prod.fst) := by
  apply lt_avg_of_forall_lt
  · simpa [List.map_eq_nil_iff] using hne
  · intro x hx
    rw [List.mem_map] at hx
    obtain ⟨p, hp, rfl⟩ := hx
    exact slope_of_mem_right hp

/-- Fitting an empty group yields an absent lane and no error. -/
lemma fitLane_nil (image_height : ℕ) : fitLane [] image_height = .ok none := rfl

/-- Fitting a non-empty group whose averaged slope is non-zero yields the
extrapolated lane line of the averaged slope and intercept. -/
lemma fitLane_cons {group : List (ℚ × ℚ)} (hne : group ≠ [])
    (hm : avg (group.map Prod.fst) ≠ 0) (image_height : ℕ) :
    fitLane group image_height =
      .ok (some
        ((pyInt (((image_height : ℚ) - avg (group.map Prod.snd)) / avg (group.map Prod.fst)),
          (image_height : ℤ)),
         (pyInt (((pyInt ((image_height : ℚ) * (6/10)) : ℚ) - avg (group.map Prod.snd)) /
            avg (group.map Prod.fst)),
          pyInt ((image_height : ℚ) * (6/10))))) := by
  simp only [fitLane, if_neg hne, if_neg hm]
  push_cast
  rfl

/-- Fitting the left group of any segment list never errors. -/
lemma fitLane_left_ok (ls : List Segment) (image_height : ℕ) :
    ∃ v, fitLane (left_lines ls) image_height = .ok v := by
  by_cases hne : left_lines ls = []
  · exact ⟨none, by rw [hne]; exact fitLane_nil image_height⟩
  · have hm : avg ((left_lines ls).map Prod.fst) ≠ 0 := by
      have := left_avg_slope_lt hne
      intro h0
      rw [h0] at this
      norm_num at this
    exact ⟨_, fitLane_cons hne hm image_height⟩

/-- Fitting the right group of any segment list never errors. -/
lemma fitLane_right_ok (ls : List Segment) (image_height : ℕ) :
    ∃ v, fitLane (right_lines ls) image_height = .ok v := by
  by_cases hne : right_lines ls = []
  · exact ⟨none, by rw [hne]; exact fitLane_nil image_height⟩
  · have hm : avg ((right_lines ls).map Prod.fst) ≠ 0 := by
      have := right_avg_slope_gt hne
      intro h0
      rw [h0] at this
      norm_num at this
    exact ⟨_, fitLane_cons hne hm image_height⟩

/-- Assembling the two per-side fits. -/
lemma calc_eq_of_ok {ls : List Segment} {image_height : ℕ}
    {a b : Option LaneLine}
    (ha : fitLane (left_lines ls) image_height = .ok a)
    (hb : fitLane (right_lines ls) image_height = .ok b) :
    calculate_lane_lines (some ls) image_height = .ok (a, b) := by
  simp only [calculate_lane_lines, ha, hb]

/-- Inverting a successful run of the fitter into its two per-side fits. -/
lemma calc_ok_inv {ls : List Segment} {image_height : ℕ}
    {r : Option LaneLine × Option LaneLine}
    (hr : calculate_lane_lines (some ls) image_height = .ok r) :
    fitLane (left_lines ls) image_height = .ok r.1
    ∧ fitLane (right_lines ls) image_height = .ok r.2 := by
  obtain ⟨a, ha⟩ := fitLane_left_ok ls image_height
  obtain ⟨b, hb⟩ := fitLane_right_ok ls image_height
  have := calc_eq_of_ok ha hb
  rw [this] at hr
  have hab : (a, b) = r := by
    injection hr
  rw [← hab]
  exact ⟨ha, hb⟩

/-- Python truncation agrees with the floor on non-negative values. -/
lemma pyInt_of_nonneg {q : ℚ} (hq : 0 ≤ q) : pyInt q = ⌊q⌋ := if_pos hq

/-- Any lane line produced by a group fit carries the two fixed anchors:
`y1 = image_height` and `y2 = int(image_height * 0.6)`. -/
lemma fitLane_some_shape {group : List (ℚ × ℚ)} {image_height : ℕ} {L : LaneLine}
    (h : fitLane group image_height = .ok (some L)) :
    L.1.2 = (image_height : ℤ) ∧ L.2.2 = pyInt ((image_height : ℚ) * (6/10)) := by
  by_cases hg : group = []
  · rw [hg, fitLane_nil] at h
    simp at h
  · by_cases hm : avg (group.map Prod.fst) = 0
    · simp only [fitLane, if_neg hg, if_pos hm] at h
      simp at h
    · rw [fitLane_cons hg hm] at h
      simp only [Except.ok.injEq, Option.some.injEq] at h
      rw [← h]
      exact ⟨rfl, rfl⟩

/-! Claim theorems. -/

/-- C1: for each side whose candidate group is non-empty, the fitter
returns a lane line whose x-coordinates are computed (and truncated to
int, as in the source) as `x = (y - intercept) / slope` at the two anchor
y-values, with `slope` and `intercept` the unweighted arithmetic means
(`avg` = sum / count) of the group's slopes and intercepts. -/
theorem claim_C1 (ls : List Segment) (image_height : ℕ) :
    (left_lines ls ≠ [] →
      ∃ rr, calculate_lane_lines (some ls) image_height =
        .ok (some
          ((pyInt ((((image_height : ℤ) : ℚ) - avg ((left_lines ls).map Prod.snd)) /
              avg ((left_lines ls).map Prod.fst)),
            (image_height : ℤ)),
           (pyInt (((pyInt ((image_height : ℚ) * (6/10)) : ℚ) -
                avg ((left_lines ls).map Prod.snd)) /
              avg ((left_lines ls).map Prod.fst)),
            pyInt ((image_height : ℚ) * (6/10)))), rr))
    ∧ (right_lines ls ≠ [] →
      ∃ ll, calculate_lane_lines (some ls) image_height =
        .ok (ll, some
          ((pyInt ((((image_height : ℤ) : ℚ) - avg ((right_lines ls).map Prod.snd)) /
              avg ((right_lines ls).map Prod.fst)),
            (image_height : ℤ)),
           (pyInt (((pyInt ((image_height : ℚ) * (6/10)) : ℚ) -
                avg ((right_lines ls).map Prod.snd)) /
              avg ((right_lines ls).map Prod.fst)),
            pyInt ((image_height : ℚ) * (6/10)))))) := by
  constructor
  · intro hne
    have hm : avg ((left_lines ls).map Prod.fst) ≠ 0 := by
      have := left_avg_slope_lt hne
      intro h0; rw [h0] at this; norm_num at this
    obtain ⟨b, hb⟩ := fitLane_right_ok ls image_height
    refine ⟨b, ?_⟩
    have ha := fitLane_cons hne hm image_height
    rw [calc_eq_of_ok ha hb]
    push_cast
    rfl
  · intro hne
    have hm : avg ((right_lines ls).map Prod.fst) ≠ 0 := by
      have := right_avg_slope_gt hne
      intro h0; rw [h0] at this; norm_num at this
    obtain ⟨a, ha⟩ := fitLane_left_ok ls image_height
    refine ⟨a, ?_⟩
    have hb := fitLane_cons hne hm image_height
    rw [calc_eq_of_ok ha hb]
    push_cast
    rfl

/-- C1 witness: the spec's end-to-end scenario 1, one clearly-left segment
`(100,480,200,300)` and one clearly-right segment `(800,480,700,300)` at
frame height 480. -/
theorem claim_C1_witness :
    ∃ rr, calculate_lane_lines (some [⟨100, 480, 200, 300⟩, ⟨800, 480, 700, 300⟩]) 480 =
      .ok (some ((100, 480), (206, 288)), rr) := by
  obtain ⟨rr, hrr⟩ :=
    (claim_C1 [⟨100, 480, 200, 300⟩, ⟨800, 480, 700, 300⟩] 480).1
      (by norm_num [left_lines, slope, intercept, List.filterMap_cons])
  refine ⟨rr, ?_⟩
  rw [hrr]
  norm_num [left_lines, slope, intercept, avg, pyInt, List.filterMap_cons]

/-- C2: classification of a non-vertical segment uses an exclusive
deadband on the slope: `slope < -0.3` joins the left group, `slope > 0.3`
the right group, `|slope| ≤ 0.3` (boundary included) joins neither; in
particular the segment `(0,0,100,31)` of slope `0.31` lands in the right
group and `(0,31,100,0)` of slope `-0.31` in the left group. -/
theorem claim_C2 (s : Segment) (hnv : s.x1 ≠ s.x2) :
    (slope s < -(3/10) →
      left_lines [s] = [(slope s, intercept s)] ∧ right_lines [s] = [])
    ∧ ((3/10) < slope s →
      right_lines [s] = [(slope s, intercept s)] ∧ left_lines [s] = [])
    ∧ (|slope s| ≤ 3/10 → left_lines [s] = [] ∧ right_lines [s] = [])
    ∧ right_lines [⟨0, 0, 100, 31⟩] = [(31/100, 0)]
    ∧ left_lines [⟨0, 31, 100, 0⟩] = [(-(31/100), 31)] := by
  refine ⟨?_, ?_, ?_, ?_, ?_⟩
  · intro h
    constructor
    · simp [left_lines, List.filterMap_cons, hnv, h]
    · have h3 : ¬ ((3/10) < slope s) := by intro hc; linarith
      simp [right_lines, List.filterMap_cons, hnv, h]
  · intro h
    have h2 : ¬ (slope s < -(3/10)) := by intro hc; linarith
    constructor
    · simp [right_lines, List.filterMap_cons, hnv, h2, h]
    · simp [left_lines, List.filterMap_cons, hnv, h2]
  · intro h
    rw [abs_le] at h
    have h2 : ¬ (slope s < -(3/10)) := by intro hc; linarith [h.1]
    have h3 : ¬ ((3/10) < slope s) := by intro hc; linarith [h.2]
    constructor
    · simp [left_lines, List.filterMap_cons, hnv, h2]
    · simp [right_lines, List.filterMap_cons, hnv, h2, h3]
  · norm_num [right_lines, slope, intercept, List.filterMap_cons]
  · norm_num [left_lines, slope, intercept, List.filterMap_cons]

/-- C2 witness: the segment `(0,0,1,1)` of slope 1 is non-vertical and
lands in the right group only. -/
theorem claim_C2_witness :
    right_lines [⟨0, 0, 1, 1⟩] = [(slope ⟨0, 0, 1, 1⟩, intercept ⟨0, 0, 1, 1⟩)]
    ∧ left_lines [⟨0, 0, 1, 1⟩] = [] :=
  (claim_C2 ⟨0, 0, 1, 1⟩ (by norm_num)).2.1 (by norm_num [slope])

/-- C3: the fitter never crashes: for every segment input and frame
height it returns a result rather than propagating the division-by-zero
(`Except.error`) that a zero averaged slope would cause.  (A zero
averaged slope is in fact unreachable, because every group member's slope
is bounded away from zero by the deadband; the "treat as absent" clause
of the claim is therefore about an empty case.) -/
theorem claim_C3 (lines : Option (List Segment)) (image_height : ℕ) :
    ∃ r, calculate_lane_lines lines image_height = .ok r := by
  cases lines with
  | none => exact ⟨(none, none), rfl⟩
  | some ls =>
    obtain ⟨a, ha⟩ := fitLane_left_ok ls image_height
    obtain ⟨b, hb⟩ := fitLane_right_ok ls image_height
    exact ⟨(a, b), calc_eq_of_ok ha hb⟩

/-- C4 counterexample: at frame height 3 with the single right segment
`(0,0,10,10)`, the produced top-endpoint y is `int(3 * 0.6) = 1`, while
`round(0.6 × 3) = 2`: the claim's `round` is not what the code computes. -/
theorem claim_C4_counterexample :
    calculate_lane_lines (some [⟨0, 0, 10, 10⟩]) 3 = .ok (none, some ((3, 3), (1, 1)))
    ∧ (1 : ℤ) ≠ round ((6/10 : ℚ) * 3) := by
  constructor
  · norm_num [calculate_lane_lines, fitLane, left_lines, right_lines, slope,
      intercept, avg, pyInt, List.filterMap_cons]
  · rw [round_eq]
    norm_num

/-- C4 (amended): every lane line the fitter returns has its bottom
y-coordinate equal to the frame height and its top y-coordinate equal to
`⌊0.6 × frame_height⌋` (the truncation `int(0.6 * h)` the code computes,
which is the floor since the height is non-negative) -- not `round`. -/
theorem claim_C4 (ls : List Segment) (image_height : ℕ)
    (r : Option LaneLine × Option LaneLine) (L : LaneLine)
    (hr : calculate_lane_lines (some ls) image_height = .ok r)
    (hL : r.1 = some L ∨ r.2 = some L) :
    L.1.2 = (image_height : ℤ) ∧ L.2.2 = ⌊(image_height : ℚ) * (6/10)⌋ := by
  obtain ⟨h1, h2⟩ := calc_ok_inv hr
  have hnn : (0 : ℚ) ≤ (image_height : ℚ) * (6/10) := by positivity
  rcases hL with hL | hL
  · rw [hL] at h1
    have := fitLane_some_shape h1
    exact ⟨this.1, by rw [this.2, pyInt_of_nonneg hnn]⟩
  · rw [hL] at h2
    have := fitLane_some_shape h2
    exact ⟨this.1, by rw [this.2, pyInt_of_nonneg hnn]⟩

/-- C4 witness: the amended anchors checked on the concrete run of the
counterexample input. -/
theorem claim_C4_witness :
    ((((3 : ℤ), (3 : ℤ)), ((1 : ℤ), (1 : ℤ))) : LaneLine).1.2 = ((3 : ℕ) : ℤ)
    ∧ ((((3 : ℤ), (3 : ℤ)), ((1 : ℤ), (1 : ℤ))) : LaneLine).2.2 =
      ⌊((3 : ℕ) : ℚ) * (6/10)⌋ :=
  claim_C4 [⟨0, 0, 10, 10⟩] 3 (none, some ((3, 3), (1, 1))) ((3, 3), (1, 1))
    (by norm_num [calculate_lane_lines, fitLane, left_lines, right_lines, slope,
      intercept, avg, pyInt, List.filterMap_cons])
    (Or.inr rfl)

/-- C5 (code bug): with the default weights `α = 0.8, β = 1, γ = 0`, the
code blends `original*α + overlay*β` (it passes `initial_img` as the
first, `α`-weighted argument of `addWeighted`), while its own docstring
and the spec promise `original*β + overlay*α`.  At overlay pixel 50 and
original pixel 100 the code yields 130 where the documented formula
yields 140. -/
theorem claim_C5_bug :
    weighted_img 50 100 (8/10) 1 0 = 130
    ∧ weighted_img_spec 50 100 (8/10) 1 0 = 140
    ∧ weighted_img 50 100 (8/10) 1 0 ≠ weighted_img_spec 50 100 (8/10) 1 0 := by
  norm_num [weighted_img, weighted_img_spec, addWeighted]

/-- C6: a vertical segment (`x1 == x2`) contributes to neither candidate
group, wherever it sits in the input and whatever its other coordinates. -/
theorem claim_C6 (s : Segment) (hv : s.x1 = s.x2) (l1 l2 : List Segment) :
    left_lines (l1 ++ s :: l2) = left_lines (l1 ++ l2)
    ∧ right_lines (l1 ++ s :: l2) = right_lines (l1 ++ l2) := by
  constructor
  · simp [left_lines, List.filterMap_append, List.filterMap_cons, hv]
  · simp [right_lines, List.filterMap_append, List.filterMap_cons, hv]

/-- C6 witness: the vertical segment `(5,0,5,9)` dropped in front of
`(0,0,1,1)` changes neither group. -/
theorem claim_C6_witness :
    left_lines [⟨5, 0, 5, 9⟩, ⟨0, 0, 1, 1⟩] = left_lines [⟨0, 0, 1, 1⟩]
    ∧ right_lines [⟨5, 0, 5, 9⟩, ⟨0, 0, 1, 1⟩] = right_lines [⟨0, 0, 1, 1⟩] :=
  claim_C6 ⟨5, 0, 5, 9⟩ rfl [] [⟨0, 0, 1, 1⟩]

/-- C7: a `None` input, an empty input, or an input whose segments are all
vertical or inside the `|slope| ≤ 0.3` deadband yields `(absent, absent)`
with no exception (`Except.ok`). -/
theorem claim_C7 (lines : Option (List Segment)) (image_height : ℕ)
    (hdeg : lines = none ∨ lines = some [] ∨
      ∃ ls, lines = some ls ∧ ∀ s ∈ ls, s.x1 = s.x2 ∨ |slope s| ≤ 3/10) :
    calculate_lane_lines lines image_height = .ok (none, none) := by
  rcases hdeg with h | h | ⟨ls, hls, hall⟩
  · rw [h]; rfl
  · rw [h]; rfl
  · rw [hls]
    have hnone : ∀ s ∈ ls, ¬ s.x1 = s.x2 →
        ¬ slope s < -(3/10) ∧ ¬ (3/10) < slope s := by
      intro s hs hnv
      rcases hall s hs with h | h
      · exact absurd h hnv
      · rw [abs_le] at h
        exact ⟨by intro hc; linarith [h.1], by intro hc; linarith [h.2]⟩
    have hleft : left_lines ls = [] := by
      rw [left_lines, List.filterMap_eq_nil_iff]
      intro s hs
      by_cases hnv : s.x1 = s.x2
      · rw [if_pos hnv]
      · rw [if_neg hnv, if_neg (hnone s hs hnv).1]
    have hright : right_lines ls = [] := by
      rw [right_lines, List.filterMap_eq_nil_iff]
      intro s hs
      by_cases hnv : s.x1 = s.x2
      · rw [if_pos hnv]
      · rw [if_neg hnv, if_neg (hnone s hs hnv).1, if_neg (hnone s hs hnv).2]
    have ha : fitLane (left_lines ls) image_height = .ok none := by
      rw [hleft]; exact fitLane_nil image_height
    have hb : fitLane (right_lines ls) image_height = .ok none := by
      rw [hright]; exact fitLane_nil image_height
    exact calc_eq_of_ok ha hb

/-- C7 witness: the single segment `(0,0,10,3)` has slope exactly `0.3`,
so both sides come back absent at height 480, with no error. -/
theorem claim_C7_witness :
    calculate_lane_lines (some [⟨0, 0, 10, 3⟩]) 480 = .ok (none, none) :=
  claim_C7 (some [⟨0, 0, 10, 3⟩]) 480
    (Or.inr (Or.inr ⟨[⟨0, 0, 10, 3⟩], rfl, by
      intro s hs
      rw [List.mem_singleton] at hs
      subst hs
      right
      rw [abs_le]
      constructor <;> norm_num [slope]⟩))

/-- C9 (implicit invariant): every left-group member has slope `< -0.3`
and every right-group member slope `> 0.3`, so the averaged slope of a
non-empty group has magnitude above `0.3` and in particular is never
zero -- the extrapolation divisions are well-defined with no explicit
guard in the code. -/
theorem claim_C9 (ls : List Segment) :
    (∀ p ∈ left_lines ls, p.1 < -(3/10))
    ∧ (∀ p ∈ right_lines ls, (3/10) < p.1)
    ∧ (left_lines ls ≠ [] →
        3/10 < |avg ((left_lines ls).map Prod.fst)|
        ∧ avg ((left_lines ls).map Prod.fst) ≠ 0)
    ∧ (right_lines ls ≠ [] →
        3/10 < |avg ((right_lines ls).map Prod.fst)|
        ∧ avg ((right_lines ls).map Prod.fst) ≠ 0) := by
  refine ⟨fun p hp => slope_of_mem_left hp, fun p hp => slope_of_mem_right hp, ?_, ?_⟩
  · intro hne
    have h := left_avg_slope_lt hne
    have habs : 3/10 < |avg ((left_lines ls).map Prod.fst)| := by
      rw [abs_of_neg (by linarith)]
      linarith
    exact ⟨habs, by intro h0; rw [h0] at h; norm_num at h⟩
  · intro hne
    have h := right_avg_slope_gt hne
    have habs : 3/10 < |avg ((right_lines ls).map Prod.fst)| := by
      rw [abs_of_pos (by linarith)]
      exact h
    exact ⟨habs, by intro h0; rw [h0] at h; norm_num at h⟩

/-- C9 witness: for the two-segment input of slopes `-3` and `3`, both
groups are non-empty and both averaged slopes have magnitude above `0.3`
and are non-zero. -/
theorem claim_C9_witness :
    (3/10 < |avg ((left_lines [⟨0, 480, 100, 180⟩, ⟨600, 180, 700, 480⟩]).map Prod.fst)|
      ∧ avg ((left_lines [⟨0, 480, 100, 180⟩, ⟨600, 180, 700, 480⟩]).map Prod.fst) ≠ 0)
    ∧ (3/10 < |avg ((right_lines [⟨0, 480, 100, 180⟩, ⟨600, 180, 700, 480⟩]).map Prod.fst)|
      ∧ avg ((right_lines [⟨0, 480, 100, 180⟩, ⟨600, 180, 700, 480⟩]).map Prod.fst) ≠ 0) :=
  ⟨(claim_C9 [⟨0, 480, 100, 180⟩, ⟨600, 180, 700, 480⟩]).2.2.1
      (by norm_num [left_lines, slope, intercept, List.filterMap_cons]),
   (claim_C9 [⟨0, 480, 100, 180⟩, ⟨600, 180, 700, 480⟩]).2.2.2
      (by norm_num [right_lines, slope, intercept, List.filterMap_cons])⟩

/-- When no quit is taken (either the display is off or no quit key is
pressed), the loop consumes the whole stream, counting, timing and
writing every frame. -/
lemma loop_no_quit (visualize : Bool) :
    ∀ (src : List (ℚ × Bool)) (s : LoopState),
      (∀ p ∈ src, (visualize && p.2) = false) →
      loop visualize src s =
        ⟨s.frame_count + src.length,
         s.processing_times ++ src.map Prod.fst,
         s.written + src.length⟩ := by
  intro src
  induction src with
  | nil => intro s _; simp [loop]
  | cons p rest ih =>
    intro s h
    obtain ⟨dur, key⟩ := p
    have hk : (visualize && key) = false := h _ (List.mem_cons_self _ _)
    rw [loop, hk]
    simp only [Bool.false_eq_true, if_false]
    rw [ih _ fun q hq => h q (List.mem_cons_of_mem _ hq)]
    simp [List.length_cons]
    constructor
    · omega
    · omega

/-- When the display is on and the quit key arrives after `pre` quiet
frames, the loop stops at the quit frame: its duration is appended and it
is written, but `frame_count` is not incremented for it. -/
lemma loop_quit (d : ℚ) (rest : List (ℚ × Bool)) :
    ∀ (pre : List (ℚ × Bool)) (s : LoopState),
      (∀ p ∈ pre, p.2 = false) →
      loop true (pre ++ (d, true) :: rest) s =
        ⟨s.frame_count + pre.length,
         s.processing_times ++ pre.map Prod.fst ++ [d],
         s.written + pre.length + 1⟩ := by
  intro pre
  induction pre with
  | nil =>
    intro s _
    simp only [List.nil_append, loop, Bool.and_self, if_true, List.map_nil,
      List.length_nil, Nat.add_zero, List.append_nil]
  | cons p rest2 ih =>
    intro s h
    obtain ⟨dur, key⟩ := p
    have hk : key = false := h _ (List.mem_cons_self _ _)
    subst hk
    rw [List.cons_append, loop]
    simp only [Bool.and_false, Bool.false_eq_true, if_false]
    rw [ih _ fun q hq => h q (List.mem_cons_of_mem _ hq)]
    simp only [LoopState.mk.injEq, List.length_cons, List.map_cons, List.cons_append,
      List.append_assoc]
    refine ⟨by omega, by simp, by omega⟩

/-- C8 counterexample: on a source yielding zero readable frames the
driver prints no final report at all -- in particular no line stating a
frame count of 0 -- because the frame-count line sits inside the same
`if processing_times:` guard as the FPS and duration lines.  Resources
are still released and the counters are zero. -/
theorem claim_C8_counterexample :
    (process_video false []).report = none
    ∧ ((process_video false []).report).map (fun t => t.1) ≠ some 0
    ∧ (process_video false []).frame_count = 0
    ∧ (process_video false []).capReleased = true
    ∧ (process_video false []).writerReleased = true := by
  refine ⟨rfl, ?_, rfl, rfl, rfl⟩
  intro h
  simp [process_video, loop] at h

/-- C8 (amended): a zero-frame run exits cleanly: no division by zero is
attempted, the FPS and mean-duration lines are skipped, resources are
released -- and no final report (not even the frame-count line) is
printed, the count remaining 0. -/
theorem claim_C8 (visualize : Bool) :
    process_video visualize [] =
      { frame_count := 0, processing_times := [], written := 0,
        capReleased := true, writerReleased := true, report := none } := by
  cases visualize <;> rfl

/-- C10 (implicit invariant): on an end-of-stream exit the reported frame
count equals the number of recorded durations and the number of frames
written; on a quit-key exit the duration list and the written output each
hold one more entry than the frame count, because the append and the
write happen before the quit check while the increment happens after it. -/
theorem claim_C10 :
    (∀ (visualize : Bool) (src : List (ℚ × Bool)),
      (visualize = false ∨ ∀ p ∈ src, p.2 = false) →
      (process_video visualize src).frame_count =
          (process_video visualize src).processing_times.length
        ∧ (process_video visualize src).written =
          (process_video visualize src).frame_count)
    ∧ (∀ (d : ℚ) (pre rest : List (ℚ × Bool)),
      (∀ p ∈ pre, p.2 = false) →
      (process_video true (pre ++ (d, true) :: rest)).processing_times.length =
          (process_video true (pre ++ (d, true) :: rest)).frame_count + 1
        ∧ (process_video true (pre ++ (d, true) :: rest)).written =
          (process_video true (pre ++ (d, true) :: rest)).frame_count + 1) := by
  constructor
  · intro visualize src h
    have hquiet : ∀ p ∈ src, (visualize && p.2) = false := by
      intro p hp
      rcases h with h | h
      · rw [h]; rfl
      · rw [h p hp]; exact Bool.and_false visualize
    rw [process_video, loop_no_quit visualize src ⟨0, [], 0⟩ hquiet]
    simp
  · intro d pre rest h
    rw [process_video, loop_quit d rest pre ⟨0, [], 0⟩ h]
    simp

/-- C10 witness: a one-frame stream read to exhaustion has equal count,
duration-list length and written count; a stream whose first frame
carries the quit key under an active display records one duration and one
written frame against a count of zero. -/
theorem claim_C10_witness :
    ((process_video false [(1, false)]).frame_count =
        (process_video false [(1, false)]).processing_times.length
      ∧ (process_video false [(1, false)]).written =
        (process_video false [(1, false)]).frame_count)
    ∧ ((process_video true [(2, true)]).processing_times.length =
        (process_video true [(2, true)]).frame_count + 1
      ∧ (process_video true [(2, true)]).written =
        (process_video true [(2, true)]).frame_count + 1) :=
  ⟨claim_C10.1 false [(1, false)] (Or.inl rfl),
   claim_C10.2 2 [] [] (by simp)⟩

end LaneDetection
